import Mathlib

/-!
Shallow embedding of the ndt7-client-cc NDT client (`src/libndt.hpp`).

The public header is the authority for the constants, the `Err` taxonomy and
the `Settings` defaults.  The bodies of the member functions live in the
implementation file that is not part of `src/`; where a claim depends on such
a body, the corresponding definition is modelled from the specification and
says so in its doc comment.

Machine integers are modelled as `Nat` (all the values involved stay far
below any relevant word size; where byte narrowing matters we write `% 256`
explicitly).  Byte strings are `List Nat`, text strings are `List Char`.
-/

namespace libndt

/-! ## Subtest flags (`libndt.hpp` lines 66-85) -/

def nettest_flag_middlebox : Nat := 1 <<< 0

def nettest_flag_upload : Nat := 1 <<< 1

def nettest_flag_download : Nat := 1 <<< 2

def nettest_flag_simple_firewall : Nat := 1 <<< 3

def nettest_flag_status : Nat := 1 <<< 4

def nettest_flag_meta : Nat := 1 <<< 5

def nettest_flag_upload_ext : Nat := 1 <<< 6

def nettest_flag_download_ext : Nat := 1 <<< 7

/-! ## Verbosity levels (`libndt.hpp` lines 87-100) -/

def verbosity_quiet : Nat := 0

def verbosity_warning : Nat := 1

def verbosity_info : Nat := 2

def verbosity_debug : Nat := 3

/-! ## Protocol flags (`libndt.hpp` lines 124-137) -/

def protocol_flag_json : Nat := 1 <<< 0

def protocol_flag_tls : Nat := 1 <<< 1

def protocol_flag_websocket : Nat := 1 <<< 2

/-! ## mlab-ns policies (`libndt.hpp` lines 144-154) -/

def mlabns_policy_closest : Nat := 0

def mlabns_policy_random : Nat := 1

def mlabns_policy_geo_options : Nat := 2

/-! ## Error codes (`libndt.hpp` lines 590-633) -/

inductive Err where
  | none
  | broken_pipe
  | connection_aborted
  | connection_refused
  | connection_reset
  | function_not_supported
  | host_unreachable
  | interrupted
  | invalid_argument
  | io_error
  | message_size
  | network_down
  | network_reset
  | network_unreachable
  | operation_in_progress
  | operation_would_block
  | timed_out
  | value_too_large
  | ai_generic
  | ai_again
  | ai_fail
  | ai_noname
  | ssl_generic
  | ssl_want_read
  | ssl_want_write
  | ssl_syscall
  | eof
  | socks5h
  | ws_proto
deriving DecidableEq, Repr

/-! ## NDT message types (`libndt.hpp` lines 639-650) -/

def msg_comm_failure : Nat := 0

def msg_srv_queue : Nat := 1

def msg_login : Nat := 2

def msg_test_prepare : Nat := 3

def msg_test_start : Nat := 4

def msg_test_msg : Nat := 5

def msg_test_finalize : Nat := 6

def msg_error : Nat := 7

def msg_results : Nat := 8

def msg_logout : Nat := 9

def msg_waiting : Nat := 10

def msg_extended_login : Nat := 11

/-! ## WebSocket constants (`libndt.hpp` lines 655-684) -/

def ws_opcode_continue : Nat := 0

def ws_opcode_text : Nat := 1

def ws_opcode_binary : Nat := 2

def ws_opcode_close : Nat := 8

def ws_opcode_ping : Nat := 9

def ws_opcode_pong : Nat := 10

def ws_fin_flag : Nat := 0x80

def ws_reserved_mask : Nat := 0x70

def ws_opcode_mask : Nat := 0x0f

def ws_mask_flag : Nat := 0x80

def ws_len_mask : Nat := 0x7f

def ws_f_connection : Nat := 1 <<< 0

def ws_f_sec_ws_accept : Nat := 1 <<< 1

def ws_f_sec_ws_protocol : Nat := 1 <<< 2

def ws_f_upgrade : Nat := 1 <<< 3

def ndt_version_compat : List Char := "v3.7.0".toList

/-! ## Settings (`libndt.hpp` lines 158-218), with the defaults of the
in-class member initializers. -/

structure Settings where
  mlabns_base_url : List Char := "https://mlab-ns.appspot.com".toList
  mlabns_policy : Nat := mlabns_policy_geo_options
  timeout : Nat := 7
  hostname : List Char := []
  port : List Char := []
  nettest_flags : Nat := nettest_flag_download
  verbosity : Nat := verbosity_quiet
  metadata : List (List Char × List Char) :=
    [("client.version".toList, ndt_version_compat),
     ("client.application".toList, "measurement-kit/libndt".toList)]
  protocol_flags : Nat := 0
  max_runtime : Nat := 14
  socks5h_port : List Char := []
  ca_bundle_path : List Char := []
  tls_verify_peer : Bool := true

/-- A default-constructed `Settings` object. -/
def defaultSettings : Settings := {}

/-! ## Legacy NDT message codec

Modelled from the spec: `Client::msg_write_legacy` and
`Client::msg_read_legacy` are only declared in `src/libndt.hpp`
(lines 349 and 360); their bodies are in the implementation file that
is not part of `src/`.  The wire format is the one the spec gives:
header `[type:u8][length:u16 big-endian][payload:length bytes]`, and
writing fails with `Err.message_size` when the payload exceeds 65535
bytes. -/

/-- Modelled from the spec: body of `Client::msg_write_legacy` (declared at
`libndt.hpp:349`).  Serializes one NDT message: type byte, 16-bit
big-endian length, payload.  Payloads longer than 65535 bytes do not fit
the 16-bit length field and yield `Err.message_size`. -/
def msg_write_legacy (code : Nat) (msg : List Nat) : Except Err (List Nat) :=
  if 65535 < msg.length then Except.error Err.message_size
  else Except.ok (code % 256 :: msg.length / 256 :: msg.length % 256 :: msg)

/-- Modelled from the spec: body of `Client::msg_read_legacy` (declared at
`libndt.hpp:360`).  Reads the three header bytes, then exactly `length`
payload bytes, from the incoming byte stream; returns the message type,
the payload, and the unread remainder of the stream.  A stream too short
to contain the message fails (the underlying `netx_recvn` would report
the read error; `Err.eof` stands for the stream ending). -/
def msg_read_legacy (stream : List Nat) : Except Err (Nat × List Nat × List Nat) :=
  match stream with
  | t :: hi :: lo :: rest =>
    let len := hi * 256 + lo
    if len ≤ rest.length then Except.ok (t, rest.take len, rest.drop len)
    else Except.error Err.eof
  | _ => Except.error Err.eof

/-! ## `netx_recvn` / `netx_sendn`

Modelled from the spec: `Client::netx_recvn` and `Client::netx_sendn` are
only declared in `src/libndt.hpp` (lines 466 and 477).  The spec says they
loop over the nonblocking recv/send variant, awaiting
readability/writability up to the I/O timeout on each
`operation_would_block`, until exactly N bytes are moved or an error
surfaces, and that partial progress on timeout returns `timed_out`.

The environment (socket plus OS) is abstracted as a script of events, one
per loop iteration: the nonblocking call moved `n` bytes, or it returned
`operation_would_block` and the subsequent wait ended with the given
error (`Err.none` meaning the socket became ready and the loop retries),
or the nonblocking call failed with the given error. -/

/-- One iteration of the environment seen by the `recvn`/`sendn` loop. -/
inductive IOEvent where
  | progress (n : Nat)
  | block (wait : Err)
  | fail (e : Err)
deriving DecidableEq, Repr

/-- An event script is well formed when a failing nonblocking call carries a
real error: the nonblocking recv/send never reports failure with
`Err.none`, and `operation_would_block` is the `block` case, not `fail`. -/
def eventWF : IOEvent → Prop
  | IOEvent.fail e => e ≠ Err.none ∧ e ≠ Err.operation_would_block
  | _ => True

instance : DecidablePred eventWF := by
  intro ev
  cases ev <;> simp only [eventWF] <;> infer_instance

def eventsWF (evs : List IOEvent) : Prop :=
  ∀ ev ∈ evs, eventWF ev

instance (evs : List IOEvent) : Decidable (eventsWF evs) :=
  List.decidableBAll eventWF evs

/-- Modelled from the spec: body of `Client::netx_recvn` (declared at
`libndt.hpp:466`).  `off` bytes have been received so far; the loop runs
until `count` bytes are in, consuming one event per iteration.  On
`progress n` the nonblocking recv moved `min n (count - off)` bytes (it
is asked for at most `count - off`); on `block w` the recv returned
`operation_would_block` and the wait for readability ended with `w`
(`Err.none` lets the loop retry, anything else — `timed_out` included —
surfaces); on `fail e` the error surfaces.  `none` means the script ended
before the loop did. -/
def netx_recvn_loop (count : Nat) : List IOEvent → Nat → Option (Err × Nat)
  | [], off => if count ≤ off then some (Err.none, off) else none
  | ev :: rest, off =>
    if count ≤ off then some (Err.none, off)
    else
      match ev with
      | IOEvent.progress n => netx_recvn_loop count rest (off + min n (count - off))
      | IOEvent.block w =>
        if w = Err.none then netx_recvn_loop count rest off else some (w, off)
      | IOEvent.fail e => some (e, off)

/-- Modelled from the spec: `Client::netx_recvn` run against the event
script `evs`, starting with no byte received. -/
def netx_recvn (count : Nat) (evs : List IOEvent) : Option (Err × Nat) :=
  netx_recvn_loop count evs 0

/-- Modelled from the spec: body of `Client::netx_sendn` (declared at
`libndt.hpp:477`).  Same loop as `netx_recvn_loop` with the nonblocking
send and the wait for writability in place of recv/readability; the
event script abstracts both the same way. -/
def netx_sendn_loop (count : Nat) : List IOEvent → Nat → Option (Err × Nat)
  | [], off => if count ≤ off then some (Err.none, off) else none
  | ev :: rest, off =>
    if count ≤ off then some (Err.none, off)
    else
      match ev with
      | IOEvent.progress n => netx_sendn_loop count rest (off + min n (count - off))
      | IOEvent.block w =>
        if w = Err.none then netx_sendn_loop count rest off else some (w, off)
      | IOEvent.fail e => some (e, off)

/-- Modelled from the spec: `Client::netx_sendn` run against the event
script `evs`, starting with no byte sent. -/
def netx_sendn (count : Nat) (evs : List IOEvent) : Option (Err × Nat) :=
  netx_sendn_loop count evs 0

/-! ## `ws_recv_frame`

Modelled from the spec: `Client::ws_recv_frame` is only declared in
`src/libndt.hpp` (lines 395-396); its body is in the missing
implementation file.  Per the spec it receives frames (via
`ws_recv_any_frame`) and, transparently: on PING it immediately emits a
PONG with the same payload and keeps receiving; on PONG it discards the
payload and keeps receiving; on CLOSE it emits a CLOSE back and returns
`Err.eof`; any other frame is returned to the caller. -/

/-- A parsed WebSocket frame: FIN flag, opcode, payload bytes. -/
structure WsFrame where
  fin : Bool
  opcode : Nat
  payload : List Nat
deriving DecidableEq, Repr

/-- Modelled from the spec: body of `Client::ws_recv_frame` (declared at
`libndt.hpp:395`).  `input` is the sequence of frames the peer delivers;
`emitted` accumulates the control frames sent back so far.  The result is
the unread remainder of `input`, every frame emitted back during the
call in order, and either the data frame handed to the caller or the
error.  `none` means the input ended while the function was still
receiving. -/
def ws_recv_frame : List WsFrame → List WsFrame → Option (List WsFrame × List WsFrame × Except Err WsFrame)
  | [], _ => none
  | f :: rest, emitted =>
    if f.opcode = ws_opcode_ping then
      ws_recv_frame rest (emitted ++ [WsFrame.mk true ws_opcode_pong f.payload])
    else if f.opcode = ws_opcode_pong then
      ws_recv_frame rest emitted
    else if f.opcode = ws_opcode_close then
      some (rest, emitted ++ [WsFrame.mk true ws_opcode_close []], Except.error Err.eof)
    else
      some (rest, emitted, Except.ok f)

/-- The PONG answers that a sequence of incoming frames provokes: one PONG
per PING, carrying the identical payload, in order. -/
def pongReplies (l : List WsFrame) : List WsFrame :=
  l.filterMap fun f =>
    if f.opcode = ws_opcode_ping then some (WsFrame.mk true ws_opcode_pong f.payload)
    else Option.none

/-! ## `msg_expect_test_prepare`

Modelled from the spec: `Client::msg_expect_test_prepare` is only declared
in `src/libndt.hpp` (lines 351-352).  Per the spec it parses the
TEST_PREPARE payload as whitespace/space-separated decimal fields: the
first field is the data port, required and valid only in 1..65535 (the
bounded `strtonum` parse); the nflows field is optional, defaults to 1
when absent, and for the `_ext` subtests is clamped to a sane maximum of
16. -/

/-- Separator characters of the TEST_PREPARE payload: space or whitespace. -/
def isSpaceChar (c : Char) : Bool :=
  c = ' ' || c = '\t' || c = '\n' || c = '\r'

/-- Split a character list into the maximal runs of non-separator
characters, dropping the separators. -/
def splitTokens : List Char → List Char → List (List Char)
  | [], acc => if acc.isEmpty then [] else [acc.reverse]
  | c :: cs, acc =>
    if isSpaceChar c then
      if acc.isEmpty then splitTokens cs []
      else acc.reverse :: splitTokens cs []
    else splitTokens cs (c :: acc)

/-- Bounded decimal parse with `strtonum` semantics: the whole token must
be decimal digits and the value must lie in `minval..maxval`. -/
def strtonum (tok : List Char) (minval maxval : Nat) : Option Nat :=
  if tok.isEmpty || tok.any (fun c => !c.isDigit) then Option.none
  else
    let v := tok.foldl (fun acc c => acc * 10 + (c.toNat - 48)) 0
    if minval ≤ v ∧ v ≤ maxval then some v else Option.none

/-- Modelled from the spec: body of `Client::msg_expect_test_prepare`
(declared at `libndt.hpp:351`).  `payload` is the TEST_PREPARE message
payload, `ext` says whether the running subtest is one of the `_ext`
variants.  Parses the first field as the port (required, 1..65535); when
a second field is present it is the flow count, parsed as a decimal and,
for the `_ext` variants, clamped to at most 16; otherwise nflows
defaults to 1.  Returns `(port, nflows)`. -/
def msg_expect_test_prepare (payload : List Char) (ext : Bool) : Except Err (Nat × Nat) :=
  match splitTokens payload [] with
  | [] => Except.error Err.invalid_argument
  | ptok :: rest =>
    match strtonum ptok 1 65535 with
    | Option.none => Except.error Err.invalid_argument
    | some port =>
      match rest with
      | [] => Except.ok (port, 1)
      | ntok :: _ =>
        if ext then
          match strtonum ntok 1 65535 with
          | Option.none => Except.error Err.invalid_argument
          | some n => Except.ok (port, min n 16)
        else
          Except.ok (port, 1)

/-! ## SHA-1 and base64

The spec requires `Sec-WebSocket-Accept` to equal
`base64(SHA1(key ++ "258EAFA5-E914-47DA-95CA-C5AB0DC85B11"))` (RFC 6455
section 4.1).  SHA-1 is implemented below over byte lists, with 32-bit
words as `Nat` reduced `% 2^32`. -/

/-- Rotate the 32-bit word `x` left by `n` bits. -/
def rotl32 (n x : Nat) : Nat :=
  ((x <<< n) ||| (x >>> (32 - n))) % 4294967296

/-- SHA-1 padding: append `0x80`, zeros up to 56 mod 64, then the bit
length as a 64-bit big-endian integer. -/
def sha1pad (msg : List Nat) : List Nat :=
  let ml := 8 * msg.length
  let zeros := (119 - msg.length % 64) % 64
  msg ++ [0x80] ++ List.replicate zeros 0 ++
    [(ml >>> 56) % 256, (ml >>> 48) % 256, (ml >>> 40) % 256, (ml >>> 32) % 256,
     (ml >>> 24) % 256, (ml >>> 16) % 256, (ml >>> 8) % 256, ml % 256]

/-- Group bytes into 32-bit big-endian words. -/
def bytesToWords : List Nat → List Nat
  | a :: b :: c :: d :: rest =>
    (((a * 256 + b) * 256 + c) * 256 + d) :: bytesToWords rest
  | _ => []

/-- The 32-bit big-endian bytes of one word. -/
def wordBytes (w : Nat) : List Nat :=
  [(w >>> 24) % 256, (w >>> 16) % 256, (w >>> 8) % 256, w % 256]

/-- Extend the 16 words of a block to the 80 words of the SHA-1 message
schedule. -/
def sha1extend (w : List Nat) : List Nat :=
  (List.range 64).foldl
    (fun acc _ =>
      let m := acc.length
      acc ++ [rotl32 1 ((acc.getD (m - 3) 0) ^^^ (acc.getD (m - 8) 0) ^^^
                        (acc.getD (m - 14) 0) ^^^ (acc.getD (m - 16) 0))])
    w

/-- The SHA-1 round function for round `i`. -/
def sha1f (i b c d : Nat) : Nat :=
  if i < 20 then (b &&& c) ||| ((b ^^^ 4294967295) &&& d)
  else if i < 40 then b ^^^ c ^^^ d
  else if i < 60 then (b &&& c) ||| (b &&& d) ||| (c &&& d)
  else b ^^^ c ^^^ d

/-- The SHA-1 round constant for round `i`. -/
def sha1k (i : Nat) : Nat :=
  if i < 20 then 0x5A827999
  else if i < 40 then 0x6ED9EBA1
  else if i < 60 then 0x8F1BBCDC
  else 0xCA62C1D6

/-- The SHA-1 compression function: one 64-byte block updates the five
32-bit state words. -/
def sha1compress (h : Nat × Nat × Nat × Nat × Nat) (block : List Nat) :
    Nat × Nat × Nat × Nat × Nat :=
  let w := sha1extend (bytesToWords block)
  let s :=
    w.enum.foldl
      (fun st iw =>
        let temp := (rotl32 5 st.1 + sha1f iw.1 st.2.1 st.2.2.1 st.2.2.2.1 +
                     st.2.2.2.2 + sha1k iw.1 + iw.2) % 4294967296
        (temp, st.1, rotl32 30 st.2.1, st.2.2.1, st.2.2.2.1))
      h
  ((h.1 + s.1) % 4294967296, (h.2.1 + s.2.1) % 4294967296,
   (h.2.2.1 + s.2.2.1) % 4294967296, (h.2.2.2.1 + s.2.2.2.1) % 4294967296,
   (h.2.2.2.2 + s.2.2.2.2) % 4294967296)

/-- SHA-1 of a byte list, as its 20-byte digest. -/
def sha1 (msg : List Nat) : List Nat :=
  let blocks := List.toChunks 64 (sha1pad msg)
  let h := blocks.foldl sha1compress
    (0x67452301, 0xEFCDAB89, 0x98BADCFE, 0x10325476, 0xC3D2E1F0)
  wordBytes h.1 ++ wordBytes h.2.1 ++ wordBytes h.2.2.1 ++
    wordBytes h.2.2.2.1 ++ wordBytes h.2.2.2.2

/-- The base64 alphabet. -/
def b64chars : List Char :=
  "ABCDEFGHIJKLMNOPQRSTUVWXYZabcdefghijklmnopqrstuvwxyz0123456789+/".toList

/-- The base64 character of a 6-bit group. -/
def b64char (n : Nat) : Char := b64chars.getD n '?'

/-- Standard base64 encoding of a byte list, with padding. -/
def base64encode : List Nat → List Char
  | [] => []
  | [a] =>
    [b64char ((a >>> 2) % 64), b64char (((a % 4) <<< 4) % 64), '=', '=']
  | [a, b] =>
    [b64char ((a >>> 2) % 64), b64char ((((a % 4) <<< 4) ||| ((b >>> 4) % 16)) % 64),
     b64char (((b % 16) <<< 2) % 64), '=']
  | a :: b :: c :: rest =>
    b64char ((a >>> 2) % 64) :: b64char ((((a % 4) <<< 4) ||| ((b >>> 4) % 16)) % 64) ::
    b64char (((((b % 16) <<< 2) ||| ((c >>> 6) % 4)) % 64)) :: b64char (c % 64) ::
    base64encode rest

/-! ## WebSocket handshake validation

Modelled from the spec: `Client::ws_handshake` is only declared in
`src/libndt.hpp` (lines 378-379).  Per the spec, after sending the
upgrade request the client reads the response header block and requires
presence of the headers indicated by the caller-supplied flag set
(`ws_f_connection`, `ws_f_upgrade`, `ws_f_sec_ws_accept`,
`ws_f_sec_ws_protocol`, `libndt.hpp:676-679`), with values validated:
`Upgrade` case-insensitively equals "websocket"; `Connection` contains
"Upgrade"; `Sec-WebSocket-Accept` equals
base64(SHA1(key ++ "258EAFA5-E914-47DA-95CA-C5AB0DC85B11"));
`Sec-WebSocket-Protocol` echoes the offered protocol.  Any mismatch
yields `Err.ws_proto`. -/

/-- The RFC 6455 GUID appended to the key before hashing. -/
def ws_guid : List Char := "258EAFA5-E914-47DA-95CA-C5AB0DC85B11".toList

/-- The bytes of an ASCII string. -/
def charBytes (s : List Char) : List Nat := s.map Char.toNat

/-- The `Sec-WebSocket-Accept` value the server must echo for the
`Sec-WebSocket-Key` value `key`. -/
def ws_accept_value (key : List Char) : List Char :=
  base64encode (sha1 (charBytes (key ++ ws_guid)))

/-- The relevant headers of the server's upgrade response, `Option.none`
when the header is absent from the response block. -/
structure WsResponse where
  connection : Option (List Char)
  upgrade : Option (List Char)
  sec_ws_accept : Option (List Char)
  sec_ws_protocol : Option (List Char)

/-- Case-insensitive ASCII string equality. -/
def lowerEq (a b : List Char) : Bool :=
  a.map Char.toLower == b.map Char.toLower

/-- Whether `needle` occurs as a contiguous run inside `hay`. -/
def startsWith : List Char → List Char → Bool
  | _, [] => true
  | [], _ :: _ => false
  | a :: as, b :: bs => a == b && startsWith as bs

def containsSub (hay needle : List Char) : Bool :=
  match hay with
  | [] => needle.isEmpty
  | _ :: t => startsWith hay needle || containsSub t needle

/-- Modelled from the spec: the `Connection` header requirement.  When
`ws_f_connection` is in `flags` the header must be present and contain
"Upgrade". -/
def check_connection (flags : Nat) (resp : WsResponse) : Bool :=
  if flags &&& ws_f_connection = 0 then true
  else
    match resp.connection with
    | Option.none => false
    | some v => containsSub v "Upgrade".toList

/-- Modelled from the spec: the `Upgrade` header requirement.  When
`ws_f_upgrade` is in `flags` the header must be present and
case-insensitively equal "websocket". -/
def check_upgrade (flags : Nat) (resp : WsResponse) : Bool :=
  if flags &&& ws_f_upgrade = 0 then true
  else
    match resp.upgrade with
    | Option.none => false
    | some v => lowerEq v "websocket".toList

/-- Modelled from the spec: the `Sec-WebSocket-Accept` header requirement.
When `ws_f_sec_ws_accept` is in `flags` the header must be present and
equal `ws_accept_value key`. -/
def check_accept (flags : Nat) (key : List Char) (resp : WsResponse) : Bool :=
  if flags &&& ws_f_sec_ws_accept = 0 then true
  else
    match resp.sec_ws_accept with
    | Option.none => false
    | some v => v == ws_accept_value key

/-- Modelled from the spec: the `Sec-WebSocket-Protocol` header
requirement.  When `ws_f_sec_ws_protocol` is in `flags` the header must
be present and echo the offered protocol. -/
def check_protocol (flags : Nat) (offered : List Char) (resp : WsResponse) : Bool :=
  if flags &&& ws_f_sec_ws_protocol = 0 then true
  else
    match resp.sec_ws_protocol with
    | Option.none => false
    | some v => v == offered

/-- Modelled from the spec: the header-validation outcome of
`Client::ws_handshake` (declared at `libndt.hpp:378`) on the server
response `resp`, given the caller-supplied flag set `flags`, the sent
`Sec-WebSocket-Key` value `key` and the offered protocol `offered`.  All
required headers valid yields `Err.none`; any mismatch yields
`Err.ws_proto`. -/
def ws_handshake (flags : Nat) (key offered : List Char) (resp : WsResponse) : Err :=
  if check_connection flags resp && check_upgrade flags resp &&
     check_accept flags key resp && check_protocol flags offered resp
  then Err.none
  else Err.ws_proto

/-!
# Theorems
-/

/-- Claim C6: the NDT message type constants equal exactly the codes the
spec assigns: comm_failure=0, srv_queue=1, login=2, test_prepare=3,
test_start=4, test_msg=5, test_finalize=6, error=7, results=8, logout=9,
waiting=10, extended_login=11. -/
theorem msg_type_codes :
    msg_comm_failure = 0 ∧ msg_srv_queue = 1 ∧ msg_login = 2 ∧
    msg_test_prepare = 3 ∧ msg_test_start = 4 ∧ msg_test_msg = 5 ∧
    msg_test_finalize = 6 ∧ msg_error = 7 ∧ msg_results = 8 ∧
    msg_logout = 9 ∧ msg_waiting = 10 ∧ msg_extended_login = 11 := by
  decide

/-- Claim C7: the eight subtest-mask flags are distinct single bits in the
spec's listed order — middlebox=bit 0, upload=bit 1, download=bit 2,
simple_firewall=bit 3, status=bit 4, meta=bit 5, upload_ext=bit 6,
download_ext=bit 7 — all distinct and each fitting the 8-bit
`NettestFlags` type, so any combination of requested subtests is
representable in one `NettestFlags` value. -/
theorem nettest_flag_bits :
    nettest_flag_middlebox = 2 ^ 0 ∧ nettest_flag_upload = 2 ^ 1 ∧
    nettest_flag_download = 2 ^ 2 ∧ nettest_flag_simple_firewall = 2 ^ 3 ∧
    nettest_flag_status = 2 ^ 4 ∧ nettest_flag_meta = 2 ^ 5 ∧
    nettest_flag_upload_ext = 2 ^ 6 ∧ nettest_flag_download_ext = 2 ^ 7 ∧
    List.Nodup [nettest_flag_middlebox, nettest_flag_upload, nettest_flag_download,
      nettest_flag_simple_firewall, nettest_flag_status, nettest_flag_meta,
      nettest_flag_upload_ext, nettest_flag_download_ext] ∧
    (∀ f ∈ [nettest_flag_middlebox, nettest_flag_upload, nettest_flag_download,
      nettest_flag_simple_firewall, nettest_flag_status, nettest_flag_meta,
      nettest_flag_upload_ext, nettest_flag_download_ext], f < 256) := by
  decide

/-- Claim C8: a default-constructed `Settings` object has the per-I/O
timeout equal to 7 seconds and the subtest-wide max_runtime equal to 14
seconds. -/
theorem default_settings_timeouts :
    defaultSettings.timeout = 7 ∧ defaultSettings.max_runtime = 14 :=
  ⟨rfl, rfl⟩

/-- Claim C9: a default-constructed `Settings` object requests only the
download subtest: `nettest_flags` equals `nettest_flag_download` and no
other subtest bit is set. -/
theorem default_settings_nettest_flags :
    defaultSettings.nettest_flags = nettest_flag_download ∧
    defaultSettings.nettest_flags &&&
      (nettest_flag_middlebox ||| nettest_flag_upload |||
       nettest_flag_simple_firewall ||| nettest_flag_status |||
       nettest_flag_meta ||| nettest_flag_upload_ext |||
       nettest_flag_download_ext) = 0 := by
  decide

/-- Claim C10: a default-constructed `Settings` object enables TLS peer
verification and enables no protocol extension: `protocol_flags` is 0,
so neither the JSON, nor the TLS, nor the WebSocket flag is set. -/
theorem default_settings_tls_and_protocol :
    defaultSettings.tls_verify_peer = true ∧
    defaultSettings.protocol_flags = 0 ∧
    defaultSettings.protocol_flags &&& protocol_flag_json = 0 ∧
    defaultSettings.protocol_flags &&& protocol_flag_tls = 0 ∧
    defaultSettings.protocol_flags &&& protocol_flag_websocket = 0 := by
  decide

/-- Claim C2: encoding a message with the legacy codec and then decoding
it yields the original `(type, payload)` pair for every payload that
fits the 16-bit length field (so in particular for lengths 0, 1 and
65535), with the rest of the stream passed through untouched; and for
every payload of length 65536 or more, `msg_write_legacy` fails with
`Err.message_size`. -/
theorem msg_legacy_roundtrip (code : Nat) (hcode : code < 256)
    (msg extra : List Nat) :
    (msg.length ≤ 65535 →
      ∃ out, msg_write_legacy code msg = Except.ok out ∧
        msg_read_legacy (out ++ extra) = Except.ok (code, msg, extra)) ∧
    (65536 ≤ msg.length →
      msg_write_legacy code msg = Except.error Err.message_size) := by
  constructor
  · intro hle
    refine ⟨code % 256 :: msg.length / 256 :: msg.length % 256 :: msg, ?_, ?_⟩
    · simp only [msg_write_legacy, if_neg (by omega : ¬ 65535 < msg.length)]
    · show msg_read_legacy
        (code % 256 :: msg.length / 256 :: msg.length % 256 :: (msg ++ extra)) = _
      simp only [msg_read_legacy]
      have hlen : msg.length / 256 * 256 + msg.length % 256 = msg.length := by
        omega
      rw [hlen, if_pos (by simp : msg.length ≤ (msg ++ extra).length),
        List.take_left, List.drop_left, Nat.mod_eq_of_lt hcode]
  · intro hge
    simp only [msg_write_legacy, if_pos (by omega : 65535 < msg.length)]

/-- Witness for claim C2 at a concrete input: type 5, payload `[1, 2, 3]`,
one trailing stream byte. -/
theorem msg_legacy_roundtrip_witness :
    ∃ out, msg_write_legacy 5 [1, 2, 3] = Except.ok out ∧
      msg_read_legacy (out ++ [9]) = Except.ok (5, [1, 2, 3], [9]) :=
  (msg_legacy_roundtrip 5 (by decide) [1, 2, 3] [9]).1 (by decide)

/-- Invariant of the `netx_recvn` loop: starting from at most `count`
bytes, whenever the loop terminates it reports `Err.none` exactly when
all `count` bytes have been moved. -/
theorem netx_recvn_loop_spec (count : Nat) :
    ∀ evs off e m, eventsWF evs → off ≤ count →
      netx_recvn_loop count evs off = some (e, m) →
      m ≤ count ∧ (e = Err.none ↔ m = count) := by
  intro evs
  induction evs with
  | nil =>
    intro off e m _ hoff h
    simp only [netx_recvn_loop] at h
    by_cases hc : count ≤ off
    · rw [if_pos hc] at h
      cases h
      exact ⟨hoff, fun _ => by omega, fun _ => rfl⟩
    · rw [if_neg hc] at h
      cases h
  | cons ev rest ih =>
    intro off e m hwf hoff h
    have hwfr : eventsWF rest := fun x hx => hwf x (List.mem_cons_of_mem ev hx)
    by_cases hc : count ≤ off
    · simp only [netx_recvn_loop, if_pos hc] at h
      cases h
      exact ⟨hoff, fun _ => by omega, fun _ => rfl⟩
    · cases ev with
      | progress n =>
        simp only [netx_recvn_loop, if_neg hc] at h
        exact ih _ e m hwfr (by omega) h
      | block w =>
        simp only [netx_recvn_loop, if_neg hc] at h
        by_cases hw : w = Err.none
        · rw [if_pos hw] at h
          exact ih off e m hwfr hoff h
        · rw [if_neg hw] at h
          cases h
          exact ⟨hoff, fun he => absurd he hw, fun hm => absurd hm (by omega)⟩
      | fail e0 =>
        simp only [netx_recvn_loop, if_neg hc] at h
        have he0 := hwf (IOEvent.fail e0) (List.mem_cons_self _ _)
        simp only [eventWF] at he0
        cases h
        exact ⟨hoff, fun he => absurd he he0.1, fun hm => absurd hm (by omega)⟩

/-- Same invariant for the `netx_sendn` loop. -/
theorem netx_sendn_loop_spec (count : Nat) :
    ∀ evs off e m, eventsWF evs → off ≤ count →
      netx_sendn_loop count evs off = some (e, m) →
      m ≤ count ∧ (e = Err.none ↔ m = count) := by
  intro evs
  induction evs with
  | nil =>
    intro off e m _ hoff h
    simp only [netx_sendn_loop] at h
    by_cases hc : count ≤ off
    · rw [if_pos hc] at h
      cases h
      exact ⟨hoff, fun _ => by omega, fun _ => rfl⟩
    · rw [if_neg hc] at h
      cases h
  | cons ev rest ih =>
    intro off e m hwf hoff h
    have hwfr : eventsWF rest := fun x hx => hwf x (List.mem_cons_of_mem ev hx)
    by_cases hc : count ≤ off
    · simp only [netx_sendn_loop, if_pos hc] at h
      cases h
      exact ⟨hoff, fun _ => by omega, fun _ => rfl⟩
    · cases ev with
      | progress n =>
        simp only [netx_sendn_loop, if_neg hc] at h
        exact ih _ e m hwfr (by omega) h
      | block w =>
        simp only [netx_sendn_loop, if_neg hc] at h
        by_cases hw : w = Err.none
        · rw [if_pos hw] at h
          exact ih off e m hwfr hoff h
        · rw [if_neg hw] at h
          cases h
          exact ⟨hoff, fun he => absurd he hw, fun hm => absurd hm (by omega)⟩
      | fail e0 =>
        simp only [netx_sendn_loop, if_neg hc] at h
        have he0 := hwf (IOEvent.fail e0) (List.mem_cons_self _ _)
        simp only [eventWF] at he0
        cases h
        exact ⟨hoff, fun he => absurd he he0.1, fun hm => absurd hm (by omega)⟩

/-- Claim C1: for every socket environment (event script), requested byte
count and well-formed script, `netx_recvn` and `netx_sendn` either move
exactly `count` bytes and return `Err.none` or return a non-`none`
error — never success with strictly fewer than `count` bytes moved; and
whenever the wait for readability/writability ends with `timed_out`
while only part of the bytes have been moved, the call returns
`Err.timed_out` with that partial count. -/
theorem netx_recvn_sendn_exact (count : Nat) (evs : List IOEvent)
    (hwf : eventsWF evs) :
    (∀ e m, netx_recvn count evs = some (e, m) →
      (e = Err.none ↔ m = count)) ∧
    (∀ e m, netx_sendn count evs = some (e, m) →
      (e = Err.none ↔ m = count)) ∧
    (∀ off rest, off < count →
      netx_recvn_loop count (IOEvent.block Err.timed_out :: rest) off =
        some (Err.timed_out, off)) ∧
    (∀ off rest, off < count →
      netx_sendn_loop count (IOEvent.block Err.timed_out :: rest) off =
        some (Err.timed_out, off)) := by
  refine ⟨fun e m h => ?_, fun e m h => ?_, fun off rest hlt => ?_, fun off rest hlt => ?_⟩
  · exact (netx_recvn_loop_spec count evs 0 e m hwf (Nat.zero_le count) h).2
  · exact (netx_sendn_loop_spec count evs 0 e m hwf (Nat.zero_le count) h).2
  · simp only [netx_recvn_loop, if_neg (by omega : ¬ count ≤ off)]
    rw [if_neg (by decide : ¬ Err.timed_out = Err.none)]
  · simp only [netx_sendn_loop, if_neg (by omega : ¬ count ≤ off)]
    rw [if_neg (by decide : ¬ Err.timed_out = Err.none)]

/-- Witness for claim C1 at a concrete input: receiving 5 bytes in chunks
of 3 and 2 succeeds, and a timed-out wait after 3 of 5 bytes returns
`timed_out` with the partial count. -/
theorem netx_recvn_sendn_exact_witness :
    (Err.none = Err.none ↔ (5 : Nat) = 5) ∧
    netx_recvn_loop 5 [IOEvent.block Err.timed_out] 3 =
      some (Err.timed_out, 3) :=
  ⟨(netx_recvn_sendn_exact 5 [IOEvent.progress 3, IOEvent.progress 2]
      (by decide)).1 Err.none 5 (by decide),
   (netx_recvn_sendn_exact 5 [IOEvent.progress 3, IOEvent.progress 2]
      (by decide)).2.2.1 3 [] (by decide)⟩

/-- Consuming a prefix of PING/PONG control frames leaves `ws_recv_frame`
receiving the remaining input, with exactly the PONG answers to the
PINGs appended to the emission accumulator. -/
theorem ws_recv_frame_consume_ctrl (ctrl : List WsFrame)
    (hctrl : ∀ g ∈ ctrl, g.opcode = ws_opcode_ping ∨ g.opcode = ws_opcode_pong) :
    ∀ acc input, ws_recv_frame (ctrl ++ input) acc =
      ws_recv_frame input (acc ++ pongReplies ctrl) := by
  induction ctrl with
  | nil =>
    intro acc input
    simp [pongReplies]
  | cons g t ih =>
    intro acc input
    have ht : ∀ x ∈ t, x.opcode = ws_opcode_ping ∨ x.opcode = ws_opcode_pong :=
      fun x hx => hctrl x (List.mem_cons_of_mem g hx)
    rcases hctrl g (List.mem_cons_self _ _) with hg | hg
    · show ws_recv_frame (g :: (t ++ input)) acc = _
      simp only [ws_recv_frame, hg, if_pos rfl]
      rw [ih ht]
      simp [pongReplies, hg]
    · show ws_recv_frame (g :: (t ++ input)) acc = _
      simp only [ws_recv_frame, hg, if_true]
      simp only [pongReplies, hg, ws_opcode_ping, ws_opcode_pong, List.filterMap_cons]
      simp only [show ((10 : Nat) = 9) = False by simp, if_false, if_true, ite_false, ite_true]
      exact ih ht acc input

/-- Claim C3: for every sequence of incoming frames made of a run of
control frames followed by a non-control frame, `ws_recv_frame` answers
every PING of the run with a PONG carrying the identical payload —
emitted during the call, hence before any data frame is returned —
discards every PONG of the run, and: a data frame is then returned to
the caller with exactly those PONG answers emitted, while a CLOSE frame
makes the call emit a CLOSE back and return `Err.eof`. -/
theorem ws_recv_frame_control_handling (ctrl : List WsFrame) (f : WsFrame)
    (rest : List WsFrame)
    (hctrl : ∀ g ∈ ctrl, g.opcode = ws_opcode_ping ∨ g.opcode = ws_opcode_pong) :
    (f.opcode ≠ ws_opcode_ping → f.opcode ≠ ws_opcode_pong →
      f.opcode ≠ ws_opcode_close →
      ws_recv_frame (ctrl ++ f :: rest) [] =
        some (rest, pongReplies ctrl, Except.ok f)) ∧
    (f.opcode = ws_opcode_close →
      ws_recv_frame (ctrl ++ f :: rest) [] =
        some (rest, pongReplies ctrl ++ [WsFrame.mk true ws_opcode_close []],
              Except.error Err.eof)) := by
  constructor
  · intro hping hpong hclose
    rw [ws_recv_frame_consume_ctrl ctrl hctrl]
    simp only [ws_recv_frame, if_neg hping, if_neg hpong, if_neg hclose]
    simp
  · intro hclose
    rw [ws_recv_frame_consume_ctrl ctrl hctrl]
    simp only [ws_recv_frame, hclose]
    simp [ws_opcode_ping, ws_opcode_pong, ws_opcode_close]

/-- Witness for claim C3 at a concrete input: a PING with payload
`[7, 8]`, then a PONG, then a binary data frame; the call returns the
data frame after emitting exactly the answering PONG with payload
`[7, 8]`. -/
theorem ws_recv_frame_control_handling_witness :
    ws_recv_frame
      [WsFrame.mk true ws_opcode_ping [7, 8], WsFrame.mk true ws_opcode_pong [9],
       WsFrame.mk true ws_opcode_binary [1]] [] =
      some ([], [WsFrame.mk true ws_opcode_pong [7, 8]],
            Except.ok (WsFrame.mk true ws_opcode_binary [1])) :=
  (ws_recv_frame_control_handling
      [WsFrame.mk true ws_opcode_ping [7, 8], WsFrame.mk true ws_opcode_pong [9]]
      (WsFrame.mk true ws_opcode_binary [1]) [] (by decide)).1
    (by decide) (by decide) (by decide)

/-- The bounded parse only succeeds inside its bounds. -/
theorem strtonum_range (tok : List Char) (minval maxval v : Nat)
    (h : strtonum tok minval maxval = some v) :
    minval ≤ v ∧ v ≤ maxval := by
  simp only [strtonum] at h
  split at h
  · cases h
  · split at h
    · cases h
      assumption
    · cases h

/-- Claim C4: whenever `msg_expect_test_prepare` succeeds, the first
whitespace-separated field of the TEST_PREPARE payload parsed as a
decimal in 1..65535 and is the returned port; when no second field is
present the flow count defaults to 1; outside the `_ext` subtests the
flow count is 1; and the flow count never exceeds the maximum of 16. -/
theorem msg_expect_test_prepare_spec (payload : List Char) (ext : Bool)
    (port nflows : Nat)
    (h : msg_expect_test_prepare payload ext = Except.ok (port, nflows)) :
    (1 ≤ port ∧ port ≤ 65535) ∧
    (∃ ptok rest, splitTokens payload [] = ptok :: rest ∧
      strtonum ptok 1 65535 = some port ∧ (rest = [] → nflows = 1)) ∧
    (ext = false → nflows = 1) ∧
    nflows ≤ 16 := by
  unfold msg_expect_test_prepare at h
  cases hsplit : splitTokens payload [] with
  | nil =>
    rw [hsplit] at h
    cases h
  | cons ptok rest =>
    rw [hsplit] at h
    simp only [] at h
    cases hp : strtonum ptok 1 65535 with
    | none =>
      rw [hp] at h
      cases h
    | some p =>
      rw [hp] at h
      simp only [] at h
      cases rest with
      | nil =>
        simp only [] at h
        cases h
        refine ⟨strtonum_range ptok 1 65535 port hp, ⟨ptok, [], rfl, hp, fun _ => rfl⟩,
          fun _ => rfl, by omega⟩
      | cons ntok more =>
        simp only [] at h
        cases ext with
        | false =>
          simp only [if_neg (by decide : ¬ false = true)] at h
          cases h
          exact ⟨strtonum_range ptok 1 65535 port hp,
            ⟨ptok, ntok :: more, rfl, hp, fun hx => by cases hx⟩,
            fun _ => rfl, by omega⟩
        | true =>
          simp only [if_pos rfl] at h
          cases hn : strtonum ntok 1 65535 with
          | none =>
            rw [hn] at h
            cases h
          | some n =>
            rw [hn] at h
            simp only [] at h
            cases h
            refine ⟨strtonum_range ptok 1 65535 _ hp,
              ⟨ptok, ntok :: more, rfl, hp, fun hx => by cases hx⟩, ?_, ?_⟩
            · intro hx
              cases hx
            · omega

/-- Witness for claim C4 at a concrete input: payload "3010 3" for an
`_ext` subtest parses to port 3010 with 3 flows. -/
theorem msg_expect_test_prepare_spec_witness :
    (1 ≤ 3010 ∧ 3010 ≤ 65535) ∧
    (∃ ptok rest, splitTokens (("3010 3").toList) [] = ptok :: rest ∧
      strtonum ptok 1 65535 = some 3010 ∧ (rest = [] → 3 = 1)) ∧
    (true = false → 3 = 1) ∧
    (3 : Nat) ≤ 16 :=
  msg_expect_test_prepare_spec (("3010 3").toList) true 3010 3 (by rfl)

/-- Claim C5: if any header required by the caller-supplied flag set is
missing from the server's upgrade response or has an invalid value —
`Upgrade` not case-insensitively equal to "websocket", `Connection` not
containing "Upgrade", `Sec-WebSocket-Accept` not equal to
base64(SHA1(key ++ "258EAFA5-E914-47DA-95CA-C5AB0DC85B11")), or
`Sec-WebSocket-Protocol` not echoing the offered protocol — then
`ws_handshake` returns `Err.ws_proto`. -/
theorem ws_handshake_requires_headers (flags : Nat) (key offered : List Char)
    (resp : WsResponse)
    (h :
      (flags &&& ws_f_connection ≠ 0 ∧
        (resp.connection = Option.none ∨
         ∃ v, resp.connection = some v ∧
           containsSub v (("Upgrade").toList) = false)) ∨
      (flags &&& ws_f_upgrade ≠ 0 ∧
        (resp.upgrade = Option.none ∨
         ∃ v, resp.upgrade = some v ∧
           lowerEq v (("websocket").toList) = false)) ∨
      (flags &&& ws_f_sec_ws_accept ≠ 0 ∧
        (resp.sec_ws_accept = Option.none ∨
         ∃ v, resp.sec_ws_accept = some v ∧ v ≠ ws_accept_value key)) ∨
      (flags &&& ws_f_sec_ws_protocol ≠ 0 ∧
        (resp.sec_ws_protocol = Option.none ∨
         ∃ v, resp.sec_ws_protocol = some v ∧ v ≠ offered))) :
    ws_handshake flags key offered resp = Err.ws_proto := by
  unfold ws_handshake
  rcases h with ⟨hf, hc⟩ | ⟨hf, hc⟩ | ⟨hf, hc⟩ | ⟨hf, hc⟩
  · have hfalse : check_connection flags resp = false := by
      unfold check_connection
      rw [if_neg hf]
      rcases hc with hc | ⟨v, hv, hcv⟩
      · rw [hc]
      · rw [hv]
        simpa using hcv
    rw [hfalse]
    simp
  · have hfalse : check_upgrade flags resp = false := by
      unfold check_upgrade
      rw [if_neg hf]
      rcases hc with hc | ⟨v, hv, hcv⟩
      · rw [hc]
      · rw [hv]
        simpa using hcv
    rw [hfalse]
    simp
  · have hfalse : check_accept flags key resp = false := by
      unfold check_accept
      rw [if_neg hf]
      rcases hc with hc | ⟨v, hv, hcv⟩
      · rw [hc]
      · rw [hv]
        simpa using hcv
    rw [hfalse]
    simp
  · have hfalse : check_protocol flags offered resp = false := by
      unfold check_protocol
      rw [if_neg hf]
      rcases hc with hc | ⟨v, hv, hcv⟩
      · rw [hc]
      · rw [hv]
        simpa using hcv
    rw [hfalse]
    simp

/-- Witness for claim C5 at a concrete input: the `Connection` header is
required but the response carries no headers at all, so the handshake
fails with `ws_proto`. -/
theorem ws_handshake_requires_headers_witness :
    ws_handshake ws_f_connection (("k").toList) (("ndt").toList)
      (WsResponse.mk Option.none Option.none Option.none Option.none) =
      Err.ws_proto :=
  ws_handshake_requires_headers ws_f_connection (("k").toList) (("ndt").toList)
    (WsResponse.mk Option.none Option.none Option.none Option.none)
    (Or.inl ⟨by decide, Or.inl rfl⟩)

end libndt
